import Mathlib

/-!
Shallow embedding of the log-parsing engine of `src/app.py` (the function
`parse_log_file` and the helpers it relies on), together with theorems
settling the specification claims about it.

Conventions of the embedding:
* a Python string is a `List Char`; the full log text is a `String` whose
  character list is processed;
* Python `str.split('\n')` is `splitNL`, substring tests (`in`) are `hasSub`,
  and `re.search` is `searchO` applied to a per-position matcher that mirrors
  the concrete regular expression of the source (leftmost match, lazy and
  greedy pieces implemented explicitly);
* text predicates (`str.upper`, the regex class `\d`) are modelled at ASCII
  scope, which is the alphabet all the patterns of the source are built from;
* `datetime.strptime` on `"%Y-%m-%d %H:%M:%S"` is the shape parser `readStamp`
  combined with the calendar validity check `validStamp` (an invalid stamp is
  a raised `ValueError`), and datetime subtraction is the difference of
  `epochSecs` (proleptic-Gregorian ordinal arithmetic, as in CPython);
* the two places where the source performs IEEE-754 double arithmetic whose
  result is observable (`int(passed / total_tests * 100)` and
  `f'{float(d):.2f}'`) are modelled by `roundDouble`, exact rounding of a
  rational to the nearest binary64 value (round to nearest, ties to even),
  assuming the normal range of binary64, which covers every value the parser
  derives from realistic inputs;
* the exceptions `parse_log_file` can raise (an invalid timestamp reaching an
  uncaught `strptime`, `float()` on a malformed duration group) make the
  embedded parser return `Except.error ()`.
-/

namespace LogViewer

/-! ### Basic string machinery -/

/-- Python `str.split('\n')`: splitting on every newline, keeping empty
pieces, so the result always has one more piece than there are newlines. -/
def splitNL : List Char → List (List Char)
  | [] => [[]]
  | c :: rest =>
    match splitNL rest with
    | [] => [[]]
    | h :: t => if c = '\n' then [] :: h :: t else (c :: h) :: t

/-- Rejoining the isolated lines with a newline, `'\n'.join(lines)`. -/
def joinNL (lines : List (List Char)) : String :=
  String.mk (List.intercalate ['\n'] lines)

/-- Boolean test that `pat` is a prefix of `s`. -/
def startsWithL : List Char → List Char → Bool
  | _, [] => true
  | [], _ :: _ => false
  | c :: s, p :: ps => c = p && startsWithL s ps

/-- Python substring containment `pat in s`. -/
def hasSub : List Char → List Char → Bool
  | s, pat =>
    match s with
    | [] => startsWithL [] pat
    | c :: t => startsWithL (c :: t) pat || hasSub t pat

/-- Consume the literal `pat` from the front of `s`, returning the rest. -/
def dropLit : List Char → List Char → Option (List Char)
  | [], s => some s
  | _ :: _, [] => none
  | p :: ps, c :: cs => if c = p then dropLit ps cs else none

/-- Consume one expected character. -/
def expectCh (c : Char) : List Char → Option (List Char)
  | [] => none
  | x :: t => if x = c then some t else none

/-- Generic `re.search`: try the per-position matcher `m` at every start
position from left to right (including the end-of-string position) and
return the first success. -/
def searchO (m : List Char → Option α) : List Char → Option α
  | [] => m []
  | c :: t =>
    match m (c :: t) with
    | some r => some r
    | none => searchO m t

/-! ### Run isolation (`src/app.py` lines 103-118) -/

/-- A line qualifies as a suite-start marker when its upper-cased form
contains the three tokens STARTING, TEST and SUITE (the loop body at
lines 108-111 of the source; `str.upper` at ASCII scope). -/
def isSuiteStart (line : List Char) : Bool :=
  let u := line.map Char.toUpper
  hasSub u "STARTING".data && hasSub u "TEST".data && hasSub u "SUITE".data

/-- The index bookkeeping of the loop: `last_test_start` starts at `-1`
(here `none`) and is overwritten by the index of every qualifying line. -/
def lastIdxAux (i : Nat) (acc : Option Nat) : List (List Char) → Option Nat
  | [] => acc
  | l :: t => lastIdxAux (i + 1) (if isSuiteStart l then some i else acc) t

/-- Index of the last suite-start line, if any. -/
def lastSuiteIdx (lines : List (List Char)) : Option Nat :=
  lastIdxAux 0 none lines

/-- Keep the suffix of lines from the last suite-start marker when one
exists, the whole list otherwise (`lines = lines[last_test_start:]`). -/
def isolateRun (lines : List (List Char)) : List (List Char) :=
  match lastSuiteIdx lines with
  | some i => lines.drop i
  | none => lines

/-! ### Checkpoint scanner (`src/app.py` lines 120-153) -/

/-- Candidate test: `re.search(r'TEST (CHECKPOINT|PASSED|FAILED)', line)`,
that is, the line contains one of the three literal substrings. -/
def isCandidate (line : List Char) : Bool :=
  hasSub line "TEST CHECKPOINT".data || hasSub line "TEST PASSED".data ||
    hasSub line "TEST FAILED".data

/-- Status classification of a candidate line, the if/elif chain at source
lines 130-140; `none` is the silent `continue` of the final `else`. -/
def classifyLine (line : List Char) : Option String :=
  if hasSub line "PASSED".data && !hasSub line "PARTIALLY".data &&
      !hasSub line "PARTIAL".data then some "passed"
  else if hasSub line "FAILED".data then some "failed"
  else if hasSub line "PARTIALLY".data || hasSub line "PARTIAL".data then some "partial"
  else none

/-- The lazy group of `TEST CHECKPOINT: (.+?) -`: accumulate at least one
character, stopping at the earliest position where the literal `" -"`
follows. -/
def lazyName1 : List Char → Option (List Char)
  | [] => none
  | c :: t =>
    if startsWithL t " -".data then some [c]
    else (lazyName1 t).map (fun nm => c :: nm)

/-- Leftmost match of `re.search(r'TEST CHECKPOINT: (.+?) -', line)`. -/
def ckptName1 : List Char → Option (List Char)
  | [] => none
  | c :: t =>
    match dropLit "TEST CHECKPOINT: ".data (c :: t) with
    | some r =>
      match lazyName1 r with
      | some nm => some nm
      | none => ckptName1 t
    | none => ckptName1 t

/-- Leftmost match of `re.search(r'TEST (?:PASSED|FAILED): (.+?)$', line)`:
the group is everything after the marker up to the end of the line and must
be non-empty. -/
def ckptName2 : List Char → Option (List Char)
  | [] => none
  | c :: t =>
    match (dropLit "TEST PASSED: ".data (c :: t)).orElse
        (fun _ => dropLit "TEST FAILED: ".data (c :: t)) with
    | some r => if r.isEmpty then ckptName2 t else some r
    | none => ckptName2 t

/-- Name extraction, source lines 143-145: the first pattern, falling back
to the second. -/
def ckptName (line : List Char) : Option (List Char) :=
  (ckptName1 line).orElse (fun _ => ckptName2 line)

/-- One checkpoint record of the output (`time` is the literal placeholder
written by the source). -/
structure Checkpoint where
  name : String
  status : String
  time : String
deriving DecidableEq

/-- Accumulator of the checkpoint loop: the list built so far and the three
counters (`partialN` embeds the Python variable `partial`). -/
structure CkptAcc where
  checkpoints : List Checkpoint
  passedN : Nat
  failedN : Nat
  partialN : Nat
deriving DecidableEq

/-- Body of the checkpoint loop (source lines 126-153) for one line. -/
def ckptStep (acc : CkptAcc) (line : List Char) : CkptAcc :=
  if isCandidate line then
    match classifyLine line with
    | none => acc
    | some st =>
      let acc2 :=
        if st = "passed" then { acc with passedN := acc.passedN + 1 }
        else if st = "failed" then { acc with failedN := acc.failedN + 1 }
        else { acc with partialN := acc.partialN + 1 }
      match ckptName line with
      | some nm =>
        { acc2 with checkpoints := acc2.checkpoints ++ [⟨String.mk nm, st, "0s"⟩] }
      | none => acc2
  else acc

/-- The whole checkpoint scan over the isolated lines. -/
def checkpointScan (lines : List (List Char)) : CkptAcc :=
  lines.foldl ckptStep ⟨[], 0, 0, 0⟩

/-! ### Timestamps (`%Y-%m-%d %H:%M:%S`, as handled by `datetime.strptime`) -/

/-- The six numeric fields captured by the shape
`\d{4}-\d{2}-\d{2} \d{2}:\d{2}:\d{2}`. -/
structure Stamp where
  year : Nat
  month : Nat
  day : Nat
  hour : Nat
  minute : Nat
  second : Nat
deriving DecidableEq

/-- Numeric value of an ASCII digit. -/
def digitVal (c : Char) : Nat := c.toNat - 48

/-- Read exactly `n` ASCII digits, returning their value and the rest. -/
def readNDigits : Nat → Nat → List Char → Option (Nat × List Char)
  | 0, acc, s => some (acc, s)
  | _ + 1, _, [] => none
  | n + 1, acc, c :: t =>
    if c.isDigit then readNDigits n (acc * 10 + digitVal c) t else none

/-- Parse the 19-character timestamp shape at the current position,
returning the fields and the rest of the input. -/
def readStamp (s : List Char) : Option (Stamp × List Char) := do
  let p1 ← readNDigits 4 0 s
  let s1 ← expectCh '-' p1.2
  let p2 ← readNDigits 2 0 s1
  let s2 ← expectCh '-' p2.2
  let p3 ← readNDigits 2 0 s2
  let s3 ← expectCh ' ' p3.2
  let p4 ← readNDigits 2 0 s3
  let s4 ← expectCh ':' p4.2
  let p5 ← readNDigits 2 0 s4
  let s5 ← expectCh ':' p5.2
  let p6 ← readNDigits 2 0 s5
  pure (⟨p1.1, p2.1, p3.1, p4.1, p5.1, p6.1⟩, p6.2)

/-- Gregorian leap year, as in CPython `datetime`. -/
def isLeap (y : Nat) : Bool := y % 4 = 0 && (y % 100 ≠ 0 || y % 400 = 0)

/-- Length of a month (months numbered 1-12). -/
def daysInMonth (y m : Nat) : Nat :=
  if m = 2 then (if isLeap y then 29 else 28)
  else if m = 4 ∨ m = 6 ∨ m = 9 ∨ m = 11 then 30
  else 31

/-- A captured timestamp that `datetime.strptime` accepts; anything else
raises `ValueError` in the source. -/
def validStamp (t : Stamp) : Bool :=
  1 ≤ t.year && 1 ≤ t.month && t.month ≤ 12 && 1 ≤ t.day &&
    t.day ≤ daysInMonth t.year t.month && t.hour ≤ 23 && t.minute ≤ 59 &&
    t.second ≤ 59

/-- Days from year 1 up to the start of year `y` (CPython
`_days_before_year`). -/
def daysBeforeYear (y : Nat) : Nat :=
  365 * (y - 1) + (y - 1) / 4 - (y - 1) / 100 + (y - 1) / 400

/-- Days from the start of the year up to the start of month `m`. -/
def daysBeforeMonth (y m : Nat) : Nat :=
  ((List.range (m - 1)).map (fun i => daysInMonth y (i + 1))).sum

/-- Proleptic-Gregorian ordinal of the date, day 0001-01-01 being 1
(CPython `datetime.toordinal`). -/
def toOrdinal (t : Stamp) : Nat :=
  daysBeforeYear t.year + daysBeforeMonth t.year t.month + t.day

/-- Seconds since the epoch of ordinal 0; differences of this quantity are
exactly `(a - b).total_seconds()` on second-precision datetimes. -/
def epochSecs (t : Stamp) : Int :=
  (toOrdinal t : Int) * 86400 + t.hour * 3600 + t.minute * 60 + t.second

/-- Two-digit zero padding. -/
def pad2 (n : Nat) : String := if n < 10 then "0" ++ toString n else toString n

/-- The `HH:MM:SS` part of the matched timestamp text,
`timestamp.split(' ')[1]` in the source. -/
def hhmmss (t : Stamp) : String :=
  pad2 t.hour ++ ":" ++ pad2 t.minute ++ ":" ++ pad2 t.second

/-! ### Binary64 rounding (the observable float arithmetic of the source) -/

/-- Round to the nearest integer, ties to even (the rounding of IEEE-754
arithmetic and of CPython float formatting). The fractional part of `q` is
`(q.num - q.floor * q.den) / q.den`, so it is compared with `1/2` by
comparing `2 * (q.num - q.floor * q.den)` with `q.den` (the operations stay
on `Int` so that concrete witnesses evaluate inside the kernel). -/
def roundHalfEven (q : ℚ) : ℤ :=
  let f := q.floor
  let r2 : ℤ := 2 * (q.num - f * q.den)
  if r2 < (q.den : ℤ) then f
  else if (q.den : ℤ) < r2 then f + 1
  else if f % 2 = 0 then f else f + 1

/-- Exact product of a rational and an integer, written on numerator and
denominator (`Rat.divInt` renormalizes). -/
def qMulInt (q : ℚ) (n : ℤ) : ℚ := Rat.divInt (q.num * n) (q.den : ℤ)

/-- Fuel-driven binary logarithm: for `1 ≤ n`, `log2fuel fuel n` is the
floor of the base-2 logarithm whenever `n ≤ 2 ^ fuel`. -/
def log2fuel : Nat → Nat → Nat
  | 0, _ => 0
  | fuel + 1, n => if n ≤ 1 then 0 else 1 + log2fuel fuel (n / 2)

/-- Floor of the base-2 logarithm of a positive natural. -/
def natLog2 (n : Nat) : Nat := log2fuel n n

/-- Fuel-driven search for the smallest `k` with `b ≤ a * 2 ^ k`. -/
def pow2UptoF : Nat → Nat → Nat → Nat
  | 0, _, _ => 0
  | fuel + 1, a, b => if b ≤ a then 0 else 1 + pow2UptoF fuel (2 * a) b

/-- Smallest `k` with `b ≤ a * 2 ^ k`, for `1 ≤ a` (fuel `b` suffices). -/
def pow2Upto (a b : Nat) : Nat := pow2UptoF b a b

/-- Floor of the base-2 logarithm of a positive rational (`1 ≤ q` is
`q.den ≤ q.num` on the reduced representation). -/
def floorLog2 (q : ℚ) : ℤ :=
  if (q.den : ℤ) ≤ q.num then (natLog2 q.floor.toNat : ℤ)
  else -(pow2Upto q.num.toNat q.den : ℤ)

/-- Multiply by an integer power of two, on numerator and denominator. -/
def mulPow2 (q : ℚ) (e : ℤ) : ℚ :=
  if 0 ≤ e then Rat.divInt (q.num * 2 ^ e.toNat) (q.den : ℤ)
  else Rat.divInt q.num ((q.den : ℤ) * 2 ^ (-e).toNat)

/-- The rational of an integer, in kernel-evaluable form. -/
def intToQ (m : ℤ) : ℚ := Rat.divInt m 1

/-- Round a positive rational to the nearest binary64 value (53-bit
significand, normal range). -/
def roundDoublePos (q : ℚ) : ℚ :=
  let e : ℤ := floorLog2 q - 52
  mulPow2 (intToQ (roundHalfEven (mulPow2 q (-e)))) e

/-- Round a rational to the nearest binary64 value (round to nearest, ties
to even; normal range, which covers everything this parser computes). -/
def roundDouble (q : ℚ) : ℚ :=
  if q.num = 0 then 0
  else if q.num < 0 then Rat.neg (roundDoublePos (Rat.neg q))
  else roundDoublePos q

/-- The success-rate computation of source line 249:
`int(passed / total_tests * 100) if total_tests > 0 else 0`, with both the
division and the multiplication by 100 rounded to binary64 and `int()`
truncating (the value is non-negative, so truncation is the floor). -/
def pySuccessRate (p t : Nat) : ℤ :=
  if 0 < t then
    (roundDouble (qMulInt (roundDouble (Rat.divInt (p : ℤ) (t : ℤ))) 100)).floor
  else 0

/-! ### Timeline scanner (`src/app.py` lines 155-221) -/

/-- One timeline record of the output. -/
structure TimelineEvent where
  step : String
  status : String
  time : String
  timestamp : String
deriving DecidableEq

/-- Skip a maximal run of digits. -/
def skipDigits : List Char → List Char
  | [] => []
  | c :: t => if c.isDigit then skipDigits t else c :: t

/-- Require at least one digit, then skip the maximal run (`\d+` followed by
a non-digit literal). -/
def skipDigits1 : List Char → Option (List Char)
  | [] => none
  | c :: t => if c.isDigit then some (skipDigits t) else none

/-- Split off a maximal run of digits, keeping the characters. -/
def spanDigits : List Char → List Char × List Char
  | [] => ([], [])
  | c :: t =>
    if c.isDigit then
      let (a, b) := spanDigits t
      (c :: a, b)
    else ([], c :: t)

/-- Split off a maximal run of the class `[\d.]`. -/
def spanDigitsDots : List Char → List Char × List Char
  | [] => ([], [])
  | c :: t =>
    if c.isDigit || c = '.' then
      let (a, b) := spanDigitsDots t
      (c :: a, b)
    else ([], c :: t)

/-- The alternation `(PASSED|FAILED)\] ` of the two end patterns, already
mapped to the status string the source computes from the group. -/
def statusTok (s : List Char) : Option (String × List Char) :=
  match dropLit "PASSED] ".data s with
  | some r => some ("passed", r)
  | none =>
    match dropLit "FAILED] ".data s with
    | some r => some ("failed", r)
    | none => none

/-- The tail ` completed successfully in ([\d.]+)s` of the with-duration end
pattern: the literal, a non-empty greedy `[\d.]+` group, then `s`. -/
def tryDurTail (s : List Char) : Option (List Char) := do
  let r ← dropLit " completed successfully in ".data s
  let p := spanDigitsDots r
  if p.1.isEmpty then none
  else
    match p.2 with
    | 's' :: _ => some p.1
    | _ => none

/-- The lazy group `(.+?)` of the with-duration end pattern: accumulate at
least one character, stopping at the earliest position where the duration
tail matches; returns the name and the duration group. -/
def lazyNameDur : List Char → Option (List Char × List Char)
  | [] => none
  | c :: t =>
    match tryDurTail t with
    | some d => some ([c], d)
    | none =>
      match lazyNameDur t with
      | some (nm, d) => some (c :: nm, d)
      | none => none

/-- Per-position matcher of `test_start_pattern` (source line 157). -/
def matchStartAt (s : List Char) : Option (Stamp × List Char) := do
  let p ← readStamp s
  let r1 ← expectCh ',' p.2
  let r2 ← skipDigits1 r1
  let r3 ← dropLit " [INFO] [TEST START] ".data r2
  if r3.isEmpty then none else some (p.1, r3)

/-- Per-position matcher of `test_end_pattern` (source line 158), returning
the stamp, the status, the name group and the duration group. -/
def matchEndDurAt (s : List Char) : Option (Stamp × String × List Char × List Char) := do
  let p ← readStamp s
  let r1 ← expectCh ',' p.2
  let r2 ← skipDigits1 r1
  let r3 ← dropLit " [INFO] [TEST ".data r2
  let q ← statusTok r3
  let nd ← lazyNameDur q.2
  pure (p.1, q.1, nd.1, nd.2)

/-- Per-position matcher of `test_end_simple_pattern` (source line 159). -/
def matchEndSimpleAt (s : List Char) : Option (Stamp × String × List Char) := do
  let p ← readStamp s
  let r1 ← expectCh ',' p.2
  let r2 ← skipDigits1 r1
  let r3 ← dropLit " [INFO] [TEST ".data r2
  let q ← statusTok r3
  if q.2.isEmpty then none else some (p.1, q.1, q.2)

/-- Per-position matcher of `step_inline_pattern` (source line 161). -/
def matchStepAt (s : List Char) : Option (Stamp × List Char × List Char) := do
  let p ← readStamp s
  let r1 ← expectCh ',' p.2
  let r2 ← skipDigits1 r1
  let r3 ← dropLit " [INFO] Step ".data r2
  let q := spanDigits r3
  if q.1.isEmpty then none
  else do
    let r4 ← dropLit ": ".data q.2
    if r4.isEmpty then none else some (p.1, q.1, r4)

/-- Python `float()` on a `[\d.]+` group: defined when the group has at most
one dot and at least one digit, with the exact decimal value (the binary64
rounding of the conversion is applied where the value is consumed). -/
def pyFloatQ (s : List Char) : Option ℚ :=
  if (s.filter (fun c => c = '.')).length ≤ 1 ∧ 1 ≤ (s.filter Char.isDigit).length then
    let (ip, rest) := spanDigits s
    let fp := match rest with
      | '.' :: t => t
      | _ => []
    some (Rat.divInt
      ((ip.foldl (fun a c => a * 10 + digitVal c) 0 : Nat) * 10 ^ fp.length +
        (fp.foldl (fun a c => a * 10 + digitVal c) 0 : Nat) : ℤ)
      ((10 : ℤ) ^ fp.length))
  else none

/-- Formatting `f'{d:.1f}s'` of an integral float (every duration derived
from second-precision timestamps is integral). -/
def fmt1 (d : ℤ) : String := toString d ++ ".0s"

/-- Formatting `f'{float(g):.2f}s'` of the exact value `q` of the duration
group: round to binary64, then render the nearest two-decimal value of that
double, ties to even (correctly rounded formatting, as CPython). -/
def fmt2 (q : ℚ) : String :=
  let cents := (roundHalfEven (qMulInt (roundDouble q) 100)).toNat
  toString (cents / 100) ++ "." ++ pad2 (cents % 100) ++ "s"

/-- Python whitespace at ASCII scope, for `str.strip()`. -/
def isSpaceCh (c : Char) : Bool :=
  c = ' ' || c = '\t' || c = '\r' || c = '\x0b' || c = '\x0c'

/-- Strip characters satisfying `p` from both ends. -/
def stripBy (p : Char → Bool) (s : List Char) : List Char :=
  ((s.dropWhile p).reverse.dropWhile p).reverse

/-- State threaded through the timeline loop: the `test_starts` dict (most
recent binding first), the dead `step_times` dict, and the events emitted so
far. -/
structure TState where
  starts : List (String × ℤ)
  stepTimes : List (List Char × ℤ × List Char)
  timeline : List TimelineEvent
deriving DecidableEq

/-- Dict lookup in `test_starts` (the head is the most recent binding). -/
def lookupStart (nm : String) : List (String × ℤ) → Option ℤ
  | [] => none
  | (k, v) :: t => if k = nm then some v else lookupStart nm t

/-- Start-marker handling (source lines 167-172): record the start time;
an invalid stamp is an uncaught `strptime` `ValueError`. -/
def procStart (st : TState) (line : List Char) : Except Unit TState :=
  match searchO matchStartAt line with
  | none => .ok st
  | some (ts, nm) =>
    if validStamp ts then
      .ok { st with starts := (String.mk nm, epochSecs ts) :: st.starts }
    else .error ()

/-- End-marker handling (source lines 174-210): the with-duration pattern
first; otherwise the simple pattern guarded by the absence of the literal
`completed successfully in`. -/
def procEnd (st : TState) (line : List Char) : Except Unit TState :=
  match searchO matchEndDurAt line with
  | some (ts, stt, nm, dur) =>
    match pyFloatQ dur with
    | some q =>
      .ok { st with timeline :=
        st.timeline ++ [⟨String.mk nm, stt, fmt2 q, hhmmss ts⟩] }
    | none => .error ()
  | none =>
    match searchO matchEndSimpleAt line with
    | none => .ok st
    | some (ts, stt, nm) =>
      if hasSub line "completed successfully in".data then .ok st
      else
        match lookupStart (String.mk nm) st.starts with
        | some s0 =>
          if validStamp ts then
            .ok { st with timeline :=
              st.timeline ++ [⟨String.mk nm, stt, fmt1 (epochSecs ts - s0), hhmmss ts⟩] }
          else .error ()
        | none =>
          .ok { st with timeline :=
            st.timeline ++ [⟨String.mk nm, stt, "N/A", hhmmss ts⟩] }

/-- Step-marker handling (source lines 212-221): the `step_times` table is
never read downstream, but its `strptime` can still raise. -/
def procStep (st : TState) (line : List Char) : Except Unit TState :=
  match searchO matchStepAt line with
  | none => .ok st
  | some (ts, num, nm) =>
    if validStamp ts then
      .ok { st with stepTimes :=
        (num, epochSecs ts, stripBy isSpaceCh (stripBy (fun c => c = '.') nm)) :: st.stepTimes }
    else .error ()

/-- Body of the timeline loop for one line, in source order. -/
def timelineLine (st : TState) (line : List Char) : Except Unit TState := do
  let st ← procStart st line
  let st ← procEnd st line
  procStep st line

/-- The whole timeline scan over the isolated lines. -/
def timelineScan (lines : List (List Char)) : Except Unit TState :=
  lines.foldlM timelineLine ⟨[], [], []⟩

/-! ### Span scan and final record (`src/app.py` lines 223-271) -/

/-- The anchored `re.match` of source line 228: a leading timestamp shape. -/
def leadStamp (line : List Char) : Option Stamp :=
  (readStamp line).map (fun p => p.1)

/-- One step of the start/end bookkeeping of source lines 227-232. -/
def spanStep (acc : Option Stamp × Option Stamp) (line : List Char) :
    Option Stamp × Option Stamp :=
  match leadStamp line with
  | none => acc
  | some ts =>
    (match acc.1 with
     | none => some ts
     | some a => some a, some ts)

/-- First and last leading timestamps over the lines. -/
def spanScan (lines : List (List Char)) : Option Stamp × Option Stamp :=
  lines.foldl spanStep (none, none)

/-- Overall duration string (source lines 234-243): `"<int>s"` from the
difference of the two timestamps, `"0s"` when no line has a leading
timestamp, `"N/A"` when `strptime` raises inside the `try`. -/
def durationStr (lines : List (List Char)) : String :=
  match spanScan lines with
  | (some a, some b) =>
    if validStamp a && validStamp b then
      toString (epochSecs b - epochSecs a) ++ "s"
    else "N/A"
  | _ => "0s"

/-- The normalized run summary returned by the parser (`partialCount`
embeds the Python key `partial`). -/
structure RunSummary where
  totalTests : Nat
  passed : Nat
  failed : Nat
  partialCount : Nat
  duration : String
  successRate : ℤ
  checkpoints : List Checkpoint
  timeline : List TimelineEvent
  logs : String
deriving DecidableEq

/-- The fixed illustrative checkpoint records substituted when the scan
found none (source lines 258-263). -/
def defaultCheckpoints : List Checkpoint :=
  [⟨"List Creation", "passed", "2s"⟩, ⟨"List Rename", "passed", "3s"⟩,
   ⟨"Add Tasks", "passed", "6s"⟩, ⟨"Duplicate List", "partial", "5s"⟩]

/-- The fixed illustrative timeline substituted when the scan found none
(source lines 264-269). -/
def defaultTimeline : List TimelineEvent :=
  [⟨"Connect to App", "passed", "1.4s", "14:35:52"⟩,
   ⟨"Create New List", "passed", "1.1s", "14:35:53"⟩,
   ⟨"Rename List", "passed", "2.9s", "14:35:56"⟩,
   ⟨"Add First Task", "passed", "2.7s", "14:35:59"⟩]

/-- The core of `parse_log_file` on already-fetched text: isolate the last
run, run the three scans, aggregate. `Except.error` is an uncaught Python
exception (an invalid timestamp at an unguarded `strptime`, or `float()` on
a malformed duration group). -/
def parseLogFile (content : String) : Except Unit RunSummary :=
  let lines := isolateRun (splitNL content.data)
  let acc := checkpointScan lines
  match timelineScan lines with
  | .error e => .error e
  | .ok tst =>
    let sum := acc.passedN + acc.failedN + acc.partialN
    let total := if sum = 0 then (if acc.checkpoints.isEmpty then 4 else acc.checkpoints.length)
      else sum
    .ok {
      totalTests := total
      passed := acc.passedN
      failed := acc.failedN
      partialCount := acc.partialN
      duration := durationStr lines
      successRate := pySuccessRate acc.passedN total
      checkpoints := if acc.checkpoints.isEmpty then defaultCheckpoints else acc.checkpoints
      timeline := if tst.timeline.isEmpty then defaultTimeline else tst.timeline
      logs := joinNL lines
    }

/-! ### Infrastructure lemmas -/

instance {ε α : Type} [DecidableEq ε] [DecidableEq α] : DecidableEq (Except ε α) :=
  fun a b =>
    match a, b with
    | .ok x, .ok y =>
      if h : x = y then .isTrue (by rw [h])
      else .isFalse (fun hh => h (Except.ok.inj hh))
    | .error x, .error y =>
      if h : x = y then .isTrue (by rw [h])
      else .isFalse (fun hh => h (Except.error.inj hh))
    | .ok _, .error _ => .isFalse (fun hh => Except.noConfusion hh)
    | .error _, .ok _ => .isFalse (fun hh => Except.noConfusion hh)

theorem startsWithL_exists {s pat : List Char} (h : startsWithL s pat = true) :
    ∃ r, s = pat ++ r := by
  induction pat generalizing s with
  | nil => exact ⟨s, rfl⟩
  | cons p ps ih =>
    cases s with
    | nil => simp [startsWithL] at h
    | cons c t =>
      simp only [startsWithL, Bool.and_eq_true, decide_eq_true_eq] at h
      obtain ⟨r, hr⟩ := ih h.2
      exact ⟨r, by simp [h.1, hr]⟩

theorem startsWithL_append (pat r : List Char) : startsWithL (pat ++ r) pat = true := by
  induction pat with
  | nil => cases r <;> rfl
  | cons p ps ih => simp [startsWithL, ih]

theorem hasSub_cons (c : Char) (t pat : List Char) :
    hasSub (c :: t) pat = (startsWithL (c :: t) pat || hasSub t pat) := rfl

theorem hasSub_of_startsWith {s pat : List Char} (h : startsWithL s pat = true) :
    hasSub s pat = true := by
  cases s with
  | nil => exact h
  | cons c t => rw [hasSub_cons, h]; rfl

theorem hasSub_append (a pat b : List Char) : hasSub (a ++ pat ++ b) pat = true := by
  induction a with
  | nil =>
    simp only [List.nil_append]
    exact hasSub_of_startsWith (startsWithL_append pat b)
  | cons c a2 ih =>
    have hshape : (c :: a2) ++ pat ++ b = c :: (a2 ++ pat ++ b) := by simp
    rw [hshape, hasSub_cons, ih]
    simp

theorem searchO_some {α : Type} {m : List Char → Option α} {s : List Char} {v : α}
    (h : searchO m s = some v) : ∃ a b, s = a ++ b ∧ m b = some v := by
  induction s with
  | nil => exact ⟨[], [], rfl, h⟩
  | cons c t ih =>
    rw [searchO] at h
    cases hm : m (c :: t) with
    | some r =>
      simp only [hm] at h
      exact ⟨[], c :: t, rfl, by rw [hm, h]⟩
    | none =>
      simp only [hm] at h
      obtain ⟨a, b, hab, hb⟩ := ih h
      exact ⟨c :: a, b, by simp [hab], hb⟩

theorem dropLit_eq {pat s r : List Char} (h : dropLit pat s = some r) : s = pat ++ r := by
  induction pat generalizing s with
  | nil =>
    simp only [dropLit, Option.some.injEq] at h
    simp [h]
  | cons p ps ih =>
    cases s with
    | nil => simp [dropLit] at h
    | cons c t =>
      rw [dropLit] at h
      split at h
      · rename_i hc
        rw [hc, ih h]
        rfl
      · simp at h

theorem expectCh_eq {c : Char} {s r : List Char} (h : expectCh c s = some r) :
    s = c :: r := by
  cases s with
  | nil => simp [expectCh] at h
  | cons x t =>
    rw [expectCh] at h
    split at h
    · rename_i hx
      simp only [Option.some.injEq] at h
      rw [hx, h]
    · simp at h

theorem readNDigits_suffix {n acc : Nat} {s : List Char} {v : Nat} {r : List Char}
    (h : readNDigits n acc s = some (v, r)) : ∃ p, s = p ++ r := by
  induction n generalizing acc s with
  | zero =>
    simp only [readNDigits, Option.some.injEq, Prod.mk.injEq] at h
    exact ⟨[], by simp [h.2]⟩
  | succ n ih =>
    cases s with
    | nil => simp [readNDigits] at h
    | cons c t =>
      rw [readNDigits] at h
      split at h
      · obtain ⟨p, hp⟩ := ih h
        exact ⟨c :: p, by simp [hp]⟩
      · simp at h

theorem suffix_comp {s t u : List Char} (h1 : ∃ p, s = p ++ t) (h2 : ∃ p, t = p ++ u) :
    ∃ p, s = p ++ u := by
  obtain ⟨p, hp⟩ := h1
  obtain ⟨q, hq⟩ := h2
  exact ⟨p ++ q, by simp [hp, hq]⟩

theorem readNDigits_suffix' {n acc : Nat} {s : List Char} {p : Nat × List Char}
    (h : readNDigits n acc s = some p) : ∃ q, s = q ++ p.2 := by
  obtain ⟨v, r⟩ := p
  exact readNDigits_suffix h

theorem expectCh_suffix {c : Char} {s r : List Char} (h : expectCh c s = some r) :
    ∃ p, s = p ++ r :=
  ⟨[c], by rw [expectCh_eq h]; rfl⟩

theorem readStamp_suffix {s : List Char} {ts : Stamp} {r : List Char}
    (h : readStamp s = some (ts, r)) : ∃ p, s = p ++ r := by
  simp only [readStamp, Option.bind_eq_bind, Option.bind_eq_some, Option.pure_def,
    Option.some.injEq, Prod.mk.injEq] at h
  obtain ⟨p1, h1, s1, h2, p2, h3, s2, h4, p3, h5, s3, h6, p4, h7, s4, h8, p5, h9,
    s5, h10, p6, h11, _, hr⟩ := h
  refine suffix_comp (readNDigits_suffix' h1) ?_
  refine suffix_comp (expectCh_suffix h2) ?_
  refine suffix_comp (readNDigits_suffix' h3) ?_
  refine suffix_comp (expectCh_suffix h4) ?_
  refine suffix_comp (readNDigits_suffix' h5) ?_
  refine suffix_comp (expectCh_suffix h6) ?_
  refine suffix_comp (readNDigits_suffix' h7) ?_
  refine suffix_comp (expectCh_suffix h8) ?_
  refine suffix_comp (readNDigits_suffix' h9) ?_
  refine suffix_comp (expectCh_suffix h10) ?_
  exact suffix_comp (readNDigits_suffix' h11) ⟨[], by simp [hr]⟩

theorem skipDigits_suffix (s : List Char) : ∃ p, s = p ++ skipDigits s := by
  induction s with
  | nil => exact ⟨[], rfl⟩
  | cons c t ih =>
    rw [skipDigits]
    split
    · obtain ⟨p, hp⟩ := ih
      exact ⟨c :: p, by simp [← hp]⟩
    · exact ⟨[], rfl⟩

theorem skipDigits1_suffix {s r : List Char} (h : skipDigits1 s = some r) :
    ∃ p, s = p ++ r := by
  cases s with
  | nil => simp [skipDigits1] at h
  | cons c t =>
    rw [skipDigits1] at h
    split at h
    · simp only [Option.some.injEq] at h
      obtain ⟨p, hp⟩ := skipDigits_suffix t
      exact ⟨c :: p, by simp [← h, ← hp]⟩
    · simp at h

theorem tryDurTail_prefix {s : List Char} {d : List Char} (h : tryDurTail s = some d) :
    ∃ r, s = " completed successfully in ".data ++ r := by
  simp only [tryDurTail, Option.bind_eq_bind, Option.bind_eq_some] at h
  obtain ⟨r, hr, _⟩ := h
  exact ⟨r, dropLit_eq hr⟩

theorem lazyNameDur_marker {s : List Char} {p : List Char × List Char}
    (h : lazyNameDur s = some p) :
    ∃ a b, s = a ++ " completed successfully in ".data ++ b := by
  induction s generalizing p with
  | nil => simp [lazyNameDur] at h
  | cons c t ih =>
    rw [lazyNameDur] at h
    cases hd : tryDurTail t with
    | some d =>
      obtain ⟨r, hr⟩ := tryDurTail_prefix hd
      exact ⟨[c], r, by simp [hr]⟩
    | none =>
      simp only [hd] at h
      cases hl : lazyNameDur t with
      | some q =>
        obtain ⟨a, b, hab⟩ := ih hl
        exact ⟨c :: a, b, by simp [hab]⟩
      | none => simp [hl] at h

theorem statusTok_suffix {s : List Char} {st : String} {r : List Char}
    (h : statusTok s = some (st, r)) : ∃ p, s = p ++ r := by
  rw [statusTok] at h
  cases h1 : dropLit "PASSED] ".data s with
  | some r1 =>
    rw [h1] at h
    simp only [Option.some.injEq, Prod.mk.injEq] at h
    exact ⟨"PASSED] ".data, by rw [dropLit_eq h1, h.2]⟩
  | none =>
    rw [h1] at h
    cases h2 : dropLit "FAILED] ".data s with
    | some r2 =>
      rw [h2] at h
      simp only [Option.some.injEq, Prod.mk.injEq] at h
      exact ⟨"FAILED] ".data, by rw [dropLit_eq h2, h.2]⟩
    | none => rw [h2] at h; simp at h

theorem infix_of_prefix_mono {s t u : List Char} (h1 : ∃ p, s = p ++ t)
    (h2 : ∃ a b, t = a ++ u ++ b) : ∃ a b, s = a ++ u ++ b := by
  obtain ⟨p, hp⟩ := h1
  obtain ⟨a, b, hab⟩ := h2
  exact ⟨p ++ a, b, by simp [hp, hab]⟩

theorem matchEndDurAt_marker {s : List Char} {v : Stamp × String × List Char × List Char}
    (h : matchEndDurAt s = some v) :
    ∃ a b, s = a ++ " completed successfully in ".data ++ b := by
  simp only [matchEndDurAt, Option.bind_eq_bind, Option.bind_eq_some, Option.pure_def,
    Option.some.injEq] at h
  obtain ⟨p, h1, r1, h2, r2, h3, r3, h4, q, h5, nd, h6, _⟩ := h
  obtain ⟨pp, hpp⟩ := @readStamp_suffix s p.1 p.2 (by rw [← h1])
  refine infix_of_prefix_mono ⟨pp, hpp⟩ ?_
  refine infix_of_prefix_mono (expectCh_suffix h2) ?_
  refine infix_of_prefix_mono (skipDigits1_suffix h3) ?_
  refine infix_of_prefix_mono ⟨" [INFO] [TEST ".data, dropLit_eq h4⟩ ?_
  obtain ⟨qq, hqq⟩ := @statusTok_suffix r3 q.1 q.2 (by rw [← h5])
  refine infix_of_prefix_mono ⟨qq, hqq⟩ ?_
  exact lazyNameDur_marker h6

theorem endDur_some_hasSub {line : List Char} {v : Stamp × String × List Char × List Char}
    (h : searchO matchEndDurAt line = some v) :
    hasSub line "completed successfully in".data = true := by
  obtain ⟨a, b, hab, hb⟩ := searchO_some h
  obtain ⟨x, y, hxy⟩ := matchEndDurAt_marker hb
  have hsplit : " completed successfully in ".data =
      [' '] ++ "completed successfully in".data ++ [' '] := by decide
  have : line = (a ++ x ++ [' ']) ++ "completed successfully in".data ++ ([' '] ++ y) := by
    rw [hab, hxy, hsplit]
    simp
  rw [this]
  exact hasSub_append _ _ _

/-! ### Lemmas on the run-isolation fold -/

theorem lastIdxAux_append (xs ys : List (List Char)) (i : Nat) (acc : Option Nat) :
    lastIdxAux i acc (xs ++ ys) =
      lastIdxAux (i + xs.length) (lastIdxAux i acc xs) ys := by
  induction xs generalizing i acc with
  | nil => simp [lastIdxAux]
  | cons x xs ih =>
    show lastIdxAux (i + 1) (if isSuiteStart x = true then some i else acc) (xs ++ ys) =
      lastIdxAux (i + (x :: xs).length)
        (lastIdxAux (i + 1) (if isSuiteStart x = true then some i else acc) xs) ys
    rw [ih]
    have hlen : i + 1 + xs.length = i + (x :: xs).length := by
      rw [List.length_cons]; omega
    rw [hlen]

theorem lastIdxAux_none (ls : List (List Char)) (i : Nat) (acc : Option Nat)
    (h : ∀ l ∈ ls, isSuiteStart l = false) : lastIdxAux i acc ls = acc := by
  induction ls generalizing i acc with
  | nil => rfl
  | cons x xs ih =>
    have hx := h x (by simp)
    rw [lastIdxAux, hx]
    exact ih _ _ (fun l hl => h l (by simp [hl]))

theorem lastSuiteIdx_last (pre : List (List Char)) (mid : List Char)
    (post : List (List Char)) (hmid : isSuiteStart mid = true)
    (hpost : ∀ l ∈ post, isSuiteStart l = false) :
    lastSuiteIdx (pre ++ mid :: post) = some pre.length := by
  unfold lastSuiteIdx
  rw [lastIdxAux_append]
  rw [lastIdxAux, hmid]
  rw [lastIdxAux_none post _ _ hpost]
  simp

/-! ### Unfolding the final record -/

theorem parse_ok_fields {t : String} {r : RunSummary} (h : parseLogFile t = .ok r) :
    r.totalTests = (if (checkpointScan (isolateRun (splitNL t.data))).passedN +
        (checkpointScan (isolateRun (splitNL t.data))).failedN +
        (checkpointScan (isolateRun (splitNL t.data))).partialN = 0 then
        (if (checkpointScan (isolateRun (splitNL t.data))).checkpoints.isEmpty then 4
         else (checkpointScan (isolateRun (splitNL t.data))).checkpoints.length)
      else (checkpointScan (isolateRun (splitNL t.data))).passedN +
        (checkpointScan (isolateRun (splitNL t.data))).failedN +
        (checkpointScan (isolateRun (splitNL t.data))).partialN) ∧
    r.passed = (checkpointScan (isolateRun (splitNL t.data))).passedN ∧
    r.failed = (checkpointScan (isolateRun (splitNL t.data))).failedN ∧
    r.partialCount = (checkpointScan (isolateRun (splitNL t.data))).partialN ∧
    r.duration = durationStr (isolateRun (splitNL t.data)) ∧
    r.successRate = pySuccessRate (checkpointScan (isolateRun (splitNL t.data))).passedN
      r.totalTests ∧
    r.checkpoints = (if (checkpointScan (isolateRun (splitNL t.data))).checkpoints.isEmpty
      then defaultCheckpoints else (checkpointScan (isolateRun (splitNL t.data))).checkpoints) := by
  simp only [parseLogFile] at h
  cases htl : timelineScan (isolateRun (splitNL t.data)) with
  | error e => rw [htl] at h; simp at h
  | ok tst =>
    rw [htl] at h
    simp only [Except.ok.injEq] at h
    subst h
    refine ⟨rfl, rfl, rfl, rfl, rfl, rfl, rfl⟩

/-! ### The claims -/

/-- C1: for every input text, a line qualifies as a suite-start marker iff
its upper-cased form contains the tokens STARTING, TEST and SUITE; when at
least one line qualifies the isolated run is exactly the suffix of lines
starting at the last qualifying index; when none qualifies the line
sequence is kept unchanged. -/
theorem c1_run_isolation (content : String) :
    (∀ l, isSuiteStart l =
      (hasSub (l.map Char.toUpper) "STARTING".data &&
       hasSub (l.map Char.toUpper) "TEST".data &&
       hasSub (l.map Char.toUpper) "SUITE".data)) ∧
    ((∀ l ∈ splitNL content.data, isSuiteStart l = false) →
      isolateRun (splitNL content.data) = splitNL content.data) ∧
    (∀ pre mid post, splitNL content.data = pre ++ mid :: post →
      isSuiteStart mid = true → (∀ l ∈ post, isSuiteStart l = false) →
      isolateRun (splitNL content.data) = mid :: post) := by
  refine ⟨fun l => rfl, ?_, ?_⟩
  · intro h
    unfold isolateRun lastSuiteIdx
    rw [lastIdxAux_none _ _ _ h]
  · intro pre mid post heq hmid hpost
    simp only [isolateRun, heq, lastSuiteIdx_last pre mid post hmid hpost]
    exact List.drop_left pre (mid :: post)

/-- Witness for C1: a log with two suite-start markers is cut at the second
one, never the first. -/
theorem c1_witness :
    isolateRun (splitNL "a\nSTARTING TEST SUITE one\nb\nStarting test suite two\nc".data) =
      ["Starting test suite two".data, "c".data] :=
  (c1_run_isolation "a\nSTARTING TEST SUITE one\nb\nStarting test suite two\nc").2.2
    ["a".data, "STARTING TEST SUITE one".data, "b".data]
    "Starting test suite two".data ["c".data] (by decide) (by decide) (by decide)

/-- C3: a line feeds the pass/fail/partial counters only if it contains one
of the literal substrings TEST CHECKPOINT, TEST PASSED, TEST FAILED; on a
candidate line the precedence is PASSED-without-PARTIAL(LY), then FAILED,
then PARTIALLY/PARTIAL, and otherwise the line is silently discarded; in
particular a TEST FAILED: Create List line counts toward failed, not
passed. -/
theorem c3_checkpoint_classification (acc : CkptAcc) (line : List Char) :
    (isCandidate line = false → ckptStep acc line = acc) ∧
    (isCandidate line = true →
      ((hasSub line "PASSED".data && !hasSub line "PARTIALLY".data &&
          !hasSub line "PARTIAL".data) = true →
        classifyLine line = some "passed" ∧
        (ckptStep acc line).passedN = acc.passedN + 1 ∧
        (ckptStep acc line).failedN = acc.failedN ∧
        (ckptStep acc line).partialN = acc.partialN) ∧
      ((hasSub line "PASSED".data && !hasSub line "PARTIALLY".data &&
          !hasSub line "PARTIAL".data) = false →
        hasSub line "FAILED".data = true →
        classifyLine line = some "failed" ∧
        (ckptStep acc line).failedN = acc.failedN + 1 ∧
        (ckptStep acc line).passedN = acc.passedN ∧
        (ckptStep acc line).partialN = acc.partialN) ∧
      ((hasSub line "PASSED".data && !hasSub line "PARTIALLY".data &&
          !hasSub line "PARTIAL".data) = false →
        hasSub line "FAILED".data = false →
        (hasSub line "PARTIALLY".data || hasSub line "PARTIAL".data) = true →
        classifyLine line = some "partial" ∧
        (ckptStep acc line).partialN = acc.partialN + 1 ∧
        (ckptStep acc line).passedN = acc.passedN ∧
        (ckptStep acc line).failedN = acc.failedN) ∧
      ((hasSub line "PASSED".data && !hasSub line "PARTIALLY".data &&
          !hasSub line "PARTIAL".data) = false →
        hasSub line "FAILED".data = false →
        (hasSub line "PARTIALLY".data || hasSub line "PARTIAL".data) = false →
        classifyLine line = none ∧ ckptStep acc line = acc)) ∧
    (ckptStep acc ("TEST FAILED: Create List".data)).failedN = acc.failedN + 1 ∧
    (ckptStep acc ("TEST FAILED: Create List".data)).passedN = acc.passedN := by
  have hfcand : isCandidate ("TEST FAILED: Create List".data) = true := by decide
  have hfcl : classifyLine ("TEST FAILED: Create List".data) = some "failed" := by decide
  have hfnm : ckptName ("TEST FAILED: Create List".data) = some "Create List".data := by
    decide
  refine ⟨?_, ?_, ?_, ?_⟩
  · intro hc
    simp [ckptStep, hc]
  · intro hc
    refine ⟨?_, ?_, ?_, ?_⟩
    · intro h1
      have hcl : classifyLine line = some "passed" := by
        simp only [classifyLine, h1]
        rfl
      refine ⟨hcl, ?_, ?_, ?_⟩ <;>
        · simp [ckptStep, hc, hcl]
          cases ckptName line <;> simp
    · intro h1 h2
      have hcl : classifyLine line = some "failed" := by
        simp only [classifyLine, h1, h2]
        rfl
      refine ⟨hcl, ?_, ?_, ?_⟩ <;>
        · simp [ckptStep, hc, hcl]
          cases ckptName line <;> simp
    · intro h1 h2 h3
      have hcl : classifyLine line = some "partial" := by
        simp only [classifyLine, h1, h2, h3]
        rfl
      refine ⟨hcl, ?_, ?_, ?_⟩ <;>
        · simp [ckptStep, hc, hcl]
          cases ckptName line <;> simp
    · intro h1 h2 h3
      have hcl : classifyLine line = none := by
        simp only [classifyLine, h1, h2, h3]
        rfl
      exact ⟨hcl, by simp [ckptStep, hc, hcl]⟩
  · simp [ckptStep, hfcand, hfcl, hfnm]
  · simp [ckptStep, hfcand, hfcl, hfnm]

/-- Witness for C3: with empty counters, the line TEST FAILED: Create List
is a candidate matching the FAILED branch, and the scan of just that line
records one failure and no pass. -/
theorem c3_witness :
    isCandidate ("TEST FAILED: Create List".data) = true ∧
    (checkpointScan [("TEST FAILED: Create List".data)]).failedN = 1 ∧
    (checkpointScan [("TEST FAILED: Create List".data)]).passedN = 0 := by
  have h := c3_checkpoint_classification ⟨[], 0, 0, 0⟩ ("TEST FAILED: Create List".data)
  exact ⟨by decide, h.2.2.1, h.2.2.2⟩

/-- C9: a candidate line with a classified status whose name matches
neither extraction pattern still increments the corresponding counter but
appends no checkpoint record. -/
theorem c9_unnamed_checkpoint (acc : CkptAcc) (line : List Char) (st : String)
    (hcand : isCandidate line = true) (hcl : classifyLine line = some st)
    (hname : ckptName line = none) :
    (ckptStep acc line).checkpoints = acc.checkpoints ∧
    (ckptStep acc line).passedN + (ckptStep acc line).failedN +
        (ckptStep acc line).partialN =
      acc.passedN + acc.failedN + acc.partialN + 1 ∧
    (st = "passed" → (ckptStep acc line).passedN = acc.passedN + 1) ∧
    (st = "failed" → (ckptStep acc line).failedN = acc.failedN + 1) ∧
    (st = "partial" → (ckptStep acc line).partialN = acc.partialN + 1) := by
  simp only [ckptStep, hcand, if_true, hcl, hname]
  by_cases h1 : st = "passed"
  · subst h1
    simp
    all_goals omega
  · by_cases h2 : st = "failed"
    · subst h2
      simp
      all_goals omega
    · simp [h1, h2]
      all_goals omega

/-- Witness for C9: the line TEST CHECKPOINT reached PASSED is classified
passed but yields no name, so the counter moves and no record is added. -/
theorem c9_witness :
    (ckptStep ⟨[], 0, 0, 0⟩ ("TEST CHECKPOINT reached PASSED".data)).checkpoints = [] ∧
    (ckptStep ⟨[], 0, 0, 0⟩ ("TEST CHECKPOINT reached PASSED".data)).passedN = 1 := by
  have h := c9_unnamed_checkpoint ⟨[], 0, 0, 0⟩ ("TEST CHECKPOINT reached PASSED".data)
    "passed" (by decide) (by decide) (by decide)
  exact ⟨h.1, h.2.2.1 rfl⟩

/-- C2: for every input on which the parse returns a record, totalTests is
the sum passed+failed+partial of the checkpoint scan whenever that sum is
positive (and the three returned counters add up to totalTests); when the
sum is zero it falls back to the length of the scanned checkpoint list if
that list is non-empty, else to the fixed default 4. -/
theorem c2_totals_rule (t : String) (r : RunSummary) (h : parseLogFile t = .ok r) :
    (0 < (checkpointScan (isolateRun (splitNL t.data))).passedN +
        (checkpointScan (isolateRun (splitNL t.data))).failedN +
        (checkpointScan (isolateRun (splitNL t.data))).partialN →
      r.totalTests = (checkpointScan (isolateRun (splitNL t.data))).passedN +
        (checkpointScan (isolateRun (splitNL t.data))).failedN +
        (checkpointScan (isolateRun (splitNL t.data))).partialN ∧
      r.passed + r.failed + r.partialCount = r.totalTests) ∧
    ((checkpointScan (isolateRun (splitNL t.data))).passedN +
        (checkpointScan (isolateRun (splitNL t.data))).failedN +
        (checkpointScan (isolateRun (splitNL t.data))).partialN = 0 →
      r.totalTests =
        if (checkpointScan (isolateRun (splitNL t.data))).checkpoints.isEmpty then 4
        else (checkpointScan (isolateRun (splitNL t.data))).checkpoints.length) := by
  obtain ⟨htot, hp, hf, hpa, _, _, _⟩ := parse_ok_fields h
  constructor
  · intro hpos
    rw [htot, hp, hf, hpa]
    rw [if_neg (by omega)]
    exact ⟨rfl, rfl⟩
  · intro hzero
    rw [htot, if_pos hzero]

/-- Witness for C2: one passing and one failing checkpoint line give a
record whose totalTests 2 equals the counter sum of the scan. -/
theorem c2_witness :
    parseLogFile "TEST PASSED: a\nTEST FAILED: b" =
      .ok ⟨2, 1, 1, 0, "0s", 50, [⟨"a", "passed", "0s"⟩, ⟨"b", "failed", "0s"⟩],
        defaultTimeline, "TEST PASSED: a\nTEST FAILED: b"⟩ ∧
    (2 : Nat) =
      (checkpointScan (isolateRun (splitNL "TEST PASSED: a\nTEST FAILED: b".data))).passedN +
      (checkpointScan (isolateRun (splitNL "TEST PASSED: a\nTEST FAILED: b".data))).failedN +
      (checkpointScan (isolateRun (splitNL "TEST PASSED: a\nTEST FAILED: b".data))).partialN := by
  have hok : parseLogFile "TEST PASSED: a\nTEST FAILED: b" =
      .ok ⟨2, 1, 1, 0, "0s", 50, [⟨"a", "passed", "0s"⟩, ⟨"b", "failed", "0s"⟩],
        defaultTimeline, "TEST PASSED: a\nTEST FAILED: b"⟩ := by decide
  have h := (c2_totals_rule "TEST PASSED: a\nTEST FAILED: b" _ hok).1 (by decide)
  exact ⟨hok, h.1⟩

/-- Invariant: a checkpoint record is appended only together with a counter
increment, so the list never outgrows the counter sum. -/
theorem ckptStep_len_le (acc : CkptAcc) (line : List Char) :
    (ckptStep acc line).checkpoints.length + acc.passedN + acc.failedN + acc.partialN ≤
      acc.checkpoints.length + (ckptStep acc line).passedN + (ckptStep acc line).failedN +
        (ckptStep acc line).partialN := by
  by_cases hc : isCandidate line
  · cases hcl : classifyLine line with
    | none =>
      simp [ckptStep, hc, hcl]
    | some st =>
      by_cases h1 : st = "passed"
      · subst h1
        cases hnm : ckptName line
        all_goals simp [ckptStep, hc, hcl, hnm]
        all_goals omega
      · by_cases h2 : st = "failed"
        · subst h2
          cases hnm : ckptName line
          all_goals simp [ckptStep, hc, hcl, hnm]
          all_goals omega
        · cases hnm : ckptName line
          all_goals simp [ckptStep, hc, hcl, hnm, h1, h2]
          all_goals omega
  · simp [ckptStep, hc]

theorem ckptScan_len_le (lines : List (List Char)) (acc : CkptAcc) :
    (lines.foldl ckptStep acc).checkpoints.length + acc.passedN + acc.failedN +
        acc.partialN ≤
      acc.checkpoints.length + (lines.foldl ckptStep acc).passedN +
        (lines.foldl ckptStep acc).failedN + (lines.foldl ckptStep acc).partialN := by
  induction lines generalizing acc with
  | nil => simp
  | cons l t ih =>
    have h1 := ckptStep_len_le acc l
    have h2 := ih (ckptStep acc l)
    simp only [List.foldl_cons] at *
    omega

/-- C10: when the checkpoint scan counted nothing, the scanned checkpoint
list is empty (records are only appended after a counter increment), so the
length fallback is unreachable and totalTests is exactly 4. -/
theorem c10_zero_sum_default (t : String) (r : RunSummary) (h : parseLogFile t = .ok r)
    (h0 : (checkpointScan (isolateRun (splitNL t.data))).passedN +
        (checkpointScan (isolateRun (splitNL t.data))).failedN +
        (checkpointScan (isolateRun (splitNL t.data))).partialN = 0) :
    (checkpointScan (isolateRun (splitNL t.data))).checkpoints = [] ∧ r.totalTests = 4 := by
  have hlen := ckptScan_len_le (isolateRun (splitNL t.data)) ⟨[], 0, 0, 0⟩
  have hnil : (checkpointScan (isolateRun (splitNL t.data))).checkpoints = [] := by
    rw [← List.length_eq_zero]
    have : (checkpointScan (isolateRun (splitNL t.data))).checkpoints.length ≤
        (checkpointScan (isolateRun (splitNL t.data))).passedN +
        (checkpointScan (isolateRun (splitNL t.data))).failedN +
        (checkpointScan (isolateRun (splitNL t.data))).partialN := by
      simpa [checkpointScan] using hlen
    omega
  obtain ⟨htot, _⟩ := parse_ok_fields h
  refine ⟨hnil, ?_⟩
  rw [htot, if_pos h0, if_pos (by simp [hnil])]

/-- Bridge: `qMulInt` is multiplication by the integer. -/
theorem qMulInt_eq (q : ℚ) (n : ℤ) : qMulInt q n = q * (n : ℚ) :=
  calc Rat.divInt (q.num * n) (q.den : ℤ)
      = ((q.num * n : ℤ) : ℚ) / (((q.den : ℤ) : ℤ) : ℚ) := Rat.divInt_eq_div _ _
    _ = (q.num : ℚ) / (q.den : ℚ) * (n : ℚ) := by push_cast; ring
    _ = q * (n : ℚ) := by rw [Rat.num_div_den]

/-- Bridge: `Rat.divInt` on two cast naturals is their division in `ℚ`. -/
theorem divInt_natCast_eq (p t : Nat) :
    Rat.divInt (p : ℤ) (t : ℤ) = (p : ℚ) / (t : ℚ) := by
  rw [Rat.divInt_eq_div]
  push_cast
  rfl

/-- C7 counterexample: the claim says successRate is the rounding
round(passed/totalTests*100); on the input with two passes and one failure
the returned successRate is the truncation 66 while the claimed rounding of
the same ratio is 67. -/
theorem c7_counterexample :
    parseLogFile "TEST PASSED: a\nTEST PASSED: b\nTEST FAILED: c" =
      .ok ⟨3, 2, 1, 0, "0s", 66, [⟨"a", "passed", "0s"⟩, ⟨"b", "passed", "0s"⟩,
        ⟨"c", "failed", "0s"⟩], defaultTimeline,
        "TEST PASSED: a\nTEST PASSED: b\nTEST FAILED: c"⟩ ∧
    (⟨3, 2, 1, 0, "0s", 66, [⟨"a", "passed", "0s"⟩, ⟨"b", "passed", "0s"⟩,
        ⟨"c", "failed", "0s"⟩], defaultTimeline,
        "TEST PASSED: a\nTEST PASSED: b\nTEST FAILED: c"⟩ : RunSummary).successRate = 66 ∧
    roundHalfEven
      (((⟨3, 2, 1, 0, "0s", 66, [⟨"a", "passed", "0s"⟩, ⟨"b", "passed", "0s"⟩,
          ⟨"c", "failed", "0s"⟩], defaultTimeline,
          "TEST PASSED: a\nTEST PASSED: b\nTEST FAILED: c"⟩ : RunSummary).passed : ℚ) /
        ((⟨3, 2, 1, 0, "0s", 66, [⟨"a", "passed", "0s"⟩, ⟨"b", "passed", "0s"⟩,
          ⟨"c", "failed", "0s"⟩], defaultTimeline,
          "TEST PASSED: a\nTEST PASSED: b\nTEST FAILED: c"⟩ : RunSummary).totalTests : ℚ)
        * 100) = 67 ∧
    ((66 : ℤ) == (67 : ℤ)) = false := by
  have hval : ((2 : Nat) : ℚ) / ((3 : Nat) : ℚ) * 100 = Rat.divInt 200 3 := by
    rw [Rat.divInt_eq_div]
    push_cast
    ring
  refine ⟨by decide, by decide, ?_, by decide⟩
  show roundHalfEven (((2 : Nat) : ℚ) / ((3 : Nat) : ℚ) * 100) = 67
  rw [hval]
  decide

/-- C7 amended: successRate is the truncation `int(passed/totalTests*100)`
of the IEEE-double computation (a floor, the value being non-negative) when
totalTests is positive, and 0 when totalTests is 0; passed=3, totalTests=4
still gives exactly 75. -/
theorem c7_success_rate (t : String) (r : RunSummary) (h : parseLogFile t = .ok r) :
    (0 < r.totalTests →
      r.successRate =
        (roundDouble (roundDouble ((r.passed : ℚ) / (r.totalTests : ℚ)) * 100)).floor) ∧
    (r.totalTests = 0 → r.successRate = 0) := by
  obtain ⟨_, hp, _, _, _, hsr, _⟩ := parse_ok_fields h
  constructor
  · intro hpos
    rw [hsr, pySuccessRate, if_pos hpos, divInt_natCast_eq, qMulInt_eq, ← hp]
    norm_num
  · intro h0
    rw [hsr, h0, pySuccessRate]
    simp

/-- Witness for C7 amended: three passes out of four total gives exactly
75, which is also what the double-arithmetic floor yields. -/
theorem c7_success_rate_witness :
    parseLogFile "TEST PASSED: a\nTEST PASSED: b\nTEST PASSED: c\nTEST FAILED: d" =
      .ok ⟨4, 3, 1, 0, "0s", 75, [⟨"a", "passed", "0s"⟩, ⟨"b", "passed", "0s"⟩,
        ⟨"c", "passed", "0s"⟩, ⟨"d", "failed", "0s"⟩], defaultTimeline,
        "TEST PASSED: a\nTEST PASSED: b\nTEST PASSED: c\nTEST FAILED: d"⟩ ∧
    (75 : ℤ) =
      (roundDouble (roundDouble (((3 : Nat) : ℚ) / ((4 : Nat) : ℚ)) * 100)).floor := by
  have hok : parseLogFile "TEST PASSED: a\nTEST PASSED: b\nTEST PASSED: c\nTEST FAILED: d" =
      .ok ⟨4, 3, 1, 0, "0s", 75, [⟨"a", "passed", "0s"⟩, ⟨"b", "passed", "0s"⟩,
        ⟨"c", "passed", "0s"⟩, ⟨"d", "failed", "0s"⟩], defaultTimeline,
        "TEST PASSED: a\nTEST PASSED: b\nTEST PASSED: c\nTEST FAILED: d"⟩ := by decide
  exact ⟨hok, (c7_success_rate _ _ hok).1 (by decide)⟩

/-- C8 counterexample: the claim says every returned checkpoint has the
placeholder time 0s, but the empty input returns the fixed default records,
among which List Creation carries the time 2s. -/
theorem c8_counterexample :
    parseLogFile "" =
      .ok ⟨4, 0, 0, 0, "0s", 0, defaultCheckpoints, defaultTimeline, ""⟩ ∧
    (⟨"List Creation", "passed", "2s"⟩ : Checkpoint) ∈
      (⟨4, 0, 0, 0, "0s", 0, defaultCheckpoints, defaultTimeline, ""⟩ :
        RunSummary).checkpoints ∧
    Checkpoint.time ⟨"List Creation", "passed", "2s"⟩ = "2s" ∧
    (("2s" : String) == ("0s" : String)) = false := by
  refine ⟨by decide, by decide, rfl, by decide⟩

/-- Every record the checkpoint scan itself appends carries the placeholder
time 0s. -/
theorem ckptStep_time (acc : CkptAcc) (line : List Char)
    (hacc : ∀ c ∈ acc.checkpoints, c.time = "0s") :
    ∀ c ∈ (ckptStep acc line).checkpoints, c.time = "0s" := by
  intro c hc
  by_cases hcand : isCandidate line
  · cases hcl : classifyLine line with
    | none =>
      simp only [ckptStep, hcand, if_true, hcl] at hc
      exact hacc c hc
    | some st =>
      cases hnm : ckptName line with
      | none =>
        simp only [ckptStep, hcand, if_true, hcl, hnm] at hc
        split at hc
        · exact hacc c hc
        · split at hc
          · exact hacc c hc
          · exact hacc c hc
      | some nm =>
        simp only [ckptStep, hcand, if_true, hcl, hnm] at hc
        split at hc
        · rcases List.mem_append.1 hc with h | h
          · exact hacc c h
          · simp only [List.mem_singleton] at h
            subst h
            rfl
        · split at hc
          all_goals
            rcases List.mem_append.1 hc with h | h
            · exact hacc c h
            · simp only [List.mem_singleton] at h
              subst h
              rfl
  · simp only [ckptStep, hcand, if_false] at hc
    exact hacc c hc

theorem ckptScan_time (lines : List (List Char)) (acc : CkptAcc)
    (hacc : ∀ c ∈ acc.checkpoints, c.time = "0s") :
    ∀ c ∈ (lines.foldl ckptStep acc).checkpoints, c.time = "0s" := by
  induction lines generalizing acc with
  | nil => exact hacc
  | cons l tl ih => exact ih (ckptStep acc l) (ckptStep_time acc l hacc)

/-- C8 amended: every record appended by the checkpoint scan has time 0s,
so whenever the scanned list is non-empty (and is therefore what the parse
returns), every returned checkpoint time is the placeholder 0s; only the
fixed default records substituted for an empty scan carry other times. -/
theorem c8_checkpoint_time (t : String) (r : RunSummary) (h : parseLogFile t = .ok r)
    (hne : (checkpointScan (isolateRun (splitNL t.data))).checkpoints.isEmpty = false) :
    ∀ c ∈ r.checkpoints, c.time = "0s" := by
  obtain ⟨_, _, _, _, _, _, hcps⟩ := parse_ok_fields h
  rw [hcps, if_neg (by simp [hne])]
  exact ckptScan_time _ _ (by simp)

/-- Witness for C8 amended: a single named passing checkpoint is returned
with time 0s. -/
theorem c8_checkpoint_time_witness :
    Checkpoint.time ⟨"a", "passed", "0s"⟩ = "0s" := by
  have hok : parseLogFile "TEST PASSED: a" =
      .ok ⟨1, 1, 0, 0, "0s", 100, [⟨"a", "passed", "0s"⟩], defaultTimeline,
        "TEST PASSED: a"⟩ := by decide
  exact c8_checkpoint_time "TEST PASSED: a" _ hok (by decide)
    ⟨"a", "passed", "0s"⟩ (by decide)

/-- C5: a line matching the end-with-duration pattern emits exactly one
timeline event whose status follows the PASSED/FAILED keyword, whose time
is the duration group formatted to two decimal places, and whose timestamp
is the HH:MM:SS part of the matched timestamp. -/
theorem c5_end_with_duration (st : TState) (line : List Char) (ts : Stamp)
    (stt : String) (nm dur : List Char) (q : ℚ)
    (hm : searchO matchEndDurAt line = some (ts, stt, nm, dur))
    (hq : pyFloatQ dur = some q) :
    procEnd st line = .ok { st with timeline := st.timeline ++
      [⟨String.mk nm, stt, fmt2 q, hhmmss ts⟩] } := by
  unfold procEnd
  simp only [hm, hq]

/-- Witness for C5: the line of the specification example yields the event
LoginTest / passed / 3.50s / 10:00:00. -/
theorem c5_witness :
    procEnd ⟨[], [], []⟩
        ("2024-01-01 10:00:00,123 [INFO] [TEST PASSED] LoginTest completed successfully in 3.50s".data) =
      .ok ⟨[], [], [⟨"LoginTest", "passed", "3.50s", "10:00:00"⟩]⟩ := by
  have h := c5_end_with_duration ⟨[], [], []⟩
    ("2024-01-01 10:00:00,123 [INFO] [TEST PASSED] LoginTest completed successfully in 3.50s".data)
    ⟨2024, 1, 1, 10, 0, 0⟩ "passed" "LoginTest".data "3.50".data (Rat.divInt 7 2)
    (by decide) (by decide)
  exact h.trans (congrArg Except.ok (by decide))

/-- C4: a line matching the end-without-duration pattern, not containing
the guard literal, emits exactly one timeline event whose status follows
the keyword and whose time is the end minus the recorded start for that
name in whole seconds at one decimal place, or N/A when no start was
recorded (the validity hypothesis keeps the unguarded `strptime` of the
source from raising). -/
theorem c4_end_without_duration (st : TState) (line : List Char) (ts : Stamp)
    (stt : String) (nm : List Char)
    (hm : searchO matchEndSimpleAt line = some (ts, stt, nm))
    (hg : hasSub line "completed successfully in".data = false)
    (hv : lookupStart (String.mk nm) st.starts = none ∨ validStamp ts = true) :
    procEnd st line = .ok { st with timeline := st.timeline ++
      [⟨String.mk nm, stt,
        (match lookupStart (String.mk nm) st.starts with
         | some s0 => fmt1 (epochSecs ts - s0)
         | none => "N/A"),
        hhmmss ts⟩] } := by
  have hnd : searchO matchEndDurAt line = none := by
    cases hsd : searchO matchEndDurAt line with
    | none => rfl
    | some v =>
      rw [endDur_some_hasSub hsd] at hg
      exact absurd hg (by simp)
  unfold procEnd
  simp only [hnd, hm, hg]
  cases hl : lookupStart (String.mk nm) st.starts with
  | none => simp [hl]
  | some s0 =>
    have hvv : validStamp ts = true := by
      cases hv with
      | inl hno => rw [hno] at hl; exact absurd hl (by simp)
      | inr hver => exact hver
    simp [hl, hvv]

/-- Witness for C4: a start for LoginTest at 10:00:00 followed by the end
line at 10:00:07 with the FAILED keyword yields the event with time 7.0s
and status failed. -/
theorem c4_witness :
    procEnd ⟨[("LoginTest", epochSecs ⟨2024, 1, 1, 10, 0, 0⟩)], [], []⟩
        ("2024-01-01 10:00:07,000 [INFO] [TEST FAILED] LoginTest".data) =
      .ok ⟨[("LoginTest", epochSecs ⟨2024, 1, 1, 10, 0, 0⟩)], [],
        [⟨"LoginTest", "failed", "7.0s", "10:00:07"⟩]⟩ := by
  have h := c4_end_without_duration
    ⟨[("LoginTest", epochSecs ⟨2024, 1, 1, 10, 0, 0⟩)], [], []⟩
    ("2024-01-01 10:00:07,000 [INFO] [TEST FAILED] LoginTest".data)
    ⟨2024, 1, 1, 10, 0, 7⟩ "failed" "LoginTest".data
    (by decide) (by decide) (Or.inr (by decide))
  exact h.trans (congrArg Except.ok (by decide))

/-- Characterization of the span fold: the first leading timestamp ends up
in the first component, the last one in the second. -/
theorem spanScan_foldl (lines : List (List Char)) (acc : Option Stamp × Option Stamp) :
    lines.foldl spanStep acc =
      ((match acc.1 with
        | some a => some a
        | none => (lines.filterMap leadStamp).head?),
       (match (lines.filterMap leadStamp).getLast? with
        | some b => some b
        | none => acc.2)) := by
  induction lines generalizing acc with
  | nil =>
    obtain ⟨a, b⟩ := acc
    cases a <;> simp
  | cons l tl ih =>
    rw [List.foldl_cons, ih]
    cases hl : leadStamp l with
    | none =>
      rw [List.filterMap_cons_none hl]
      have hstep : spanStep acc l = acc := by
        rw [spanStep, hl]
      rw [hstep]
    | some ts =>
      rw [List.filterMap_cons_some hl]
      have hstep : spanStep acc l =
          ((match acc.1 with
            | none => some ts
            | some a => some a), some ts) := by
        rw [spanStep, hl]
      rw [hstep]
      refine Prod.ext ?_ ?_
      · obtain ⟨a, b⟩ := acc
        cases a <;> simp
      · cases hfm : tl.filterMap leadStamp with
        | nil => simp
        | cons y ys =>
          cases hgl : (y :: ys).getLast? with
          | some b => simp [hgl]
          | none =>
            have hne : y :: ys ≠ [] := by simp
            rw [← List.getLast?_isSome] at hne
            rw [hgl] at hne
            simp at hne

/-- C6: the duration of the run is computed from the first and last lines
with a leading timestamp shape: their difference in whole seconds when both
parse, the string 0s when no line has such a shape, and the sentinel N/A
when a matched timestamp is invalid, without aborting the rest of the
parse. -/
theorem c6_span_duration (t : String) (r : RunSummary) (h : parseLogFile t = .ok r) :
    r.duration = durationStr (isolateRun (splitNL t.data)) ∧
    (spanScan (isolateRun (splitNL t.data))).1 =
      ((isolateRun (splitNL t.data)).filterMap leadStamp).head? ∧
    (spanScan (isolateRun (splitNL t.data))).2 =
      ((isolateRun (splitNL t.data)).filterMap leadStamp).getLast? ∧
    ((isolateRun (splitNL t.data)).filterMap leadStamp = [] →
      durationStr (isolateRun (splitNL t.data)) = "0s") ∧
    (∀ a b, (spanScan (isolateRun (splitNL t.data))).1 = some a →
      (spanScan (isolateRun (splitNL t.data))).2 = some b →
      ((validStamp a && validStamp b) = true →
        durationStr (isolateRun (splitNL t.data)) =
          toString (epochSecs b - epochSecs a) ++ "s") ∧
      ((validStamp a && validStamp b) = false →
        durationStr (isolateRun (splitNL t.data)) = "N/A")) := by
  obtain ⟨_, _, _, _, hd, _, _⟩ := parse_ok_fields h
  have hfold := spanScan_foldl (isolateRun (splitNL t.data)) (none, none)
  have hfst : (spanScan (isolateRun (splitNL t.data))).1 =
      ((isolateRun (splitNL t.data)).filterMap leadStamp).head? := by
    rw [spanScan, hfold]
  have hsnd : (spanScan (isolateRun (splitNL t.data))).2 =
      ((isolateRun (splitNL t.data)).filterMap leadStamp).getLast? := by
    rw [spanScan, hfold]
    cases ((isolateRun (splitNL t.data)).filterMap leadStamp).getLast? <;> simp
  refine ⟨hd, hfst, hsnd, ?_, ?_⟩
  · intro hnil
    have hspan : spanScan (isolateRun (splitNL t.data)) = (none, none) := by
      refine Prod.ext ?_ ?_
      · rw [hfst, hnil]; rfl
      · rw [hsnd, hnil]; rfl
    rw [durationStr, hspan]
  · intro a b ha hb
    have hspan : spanScan (isolateRun (splitNL t.data)) = (some a, some b) :=
      Prod.ext ha hb
    constructor
    · intro hvb
      rw [durationStr, hspan]
      simp [hvb]
    · intro hvb
      rw [durationStr, hspan]
      simp [hvb]

/-- Witness for C6: a line whose leading token has the timestamp shape but
month 13 makes the duration the sentinel N/A while the parse still returns
a full record. -/
theorem c6_witness :
    parseLogFile "2024-13-01 10:00:00 bad" =
      .ok ⟨4, 0, 0, 0, "N/A", 0, defaultCheckpoints, defaultTimeline,
        "2024-13-01 10:00:00 bad"⟩ ∧
    durationStr (isolateRun (splitNL "2024-13-01 10:00:00 bad".data)) = "N/A" := by
  have hok : parseLogFile "2024-13-01 10:00:00 bad" =
      .ok ⟨4, 0, 0, 0, "N/A", 0, defaultCheckpoints, defaultTimeline,
        "2024-13-01 10:00:00 bad"⟩ := by decide
  exact ⟨hok, ((c6_span_duration _ _ hok).1).symm⟩

/-- Witness for C10: the empty input counts nothing, the scanned list is
empty and totalTests is the default 4. -/
theorem c10_witness :
    (checkpointScan (isolateRun (splitNL "".data))).checkpoints = [] ∧
      (⟨4, 0, 0, 0, "0s", 0, defaultCheckpoints, defaultTimeline, ""⟩ : RunSummary).totalTests
        = 4 :=
  c10_zero_sum_default ""
    ⟨4, 0, 0, 0, "0s", 0, defaultCheckpoints, defaultTimeline, ""⟩ rfl (by decide)

end LogViewer
